import Mathlib

/-!
Shallow embedding of the chinese-chess-trae repository core: the data model
(src/models/Position.ts, PieceModel, GameModel), the rule engine
(Rules, src/unnamed/part_005), the serialization boundary (toJSON/fromJSON),
the main-thread AI (part_004) and the worker-thread search AI (part_003).
Coordinates are JavaScript numbers used as integers; they are modelled as Int.
-/

namespace Chess

/-- PieceColor from src/utils/Constants.ts. -/
inductive PieceColor where
  | red
  | black
deriving DecidableEq, Fintype

/-- PieceType from src/utils/Constants.ts. -/
inductive PieceType where
  | king
  | advisor
  | elephant
  | horse
  | chariot
  | cannon
  | soldier
deriving DecidableEq, Fintype

/-- GameState from src/utils/Constants.ts. -/
inductive GameState where
  | init
  | playing
  | over
deriving DecidableEq

/-- GameMode from src/utils/Constants.ts. -/
inductive GameMode where
  | pvp
  | pve
deriving DecidableEq

/-- AIDifficulty from src/utils/Constants.ts. -/
inductive AIDifficulty where
  | easy
  | medium
  | hard
deriving DecidableEq

/-- The inline expression `color === PieceColor.RED ? PieceColor.BLACK : PieceColor.RED`
used throughout the source. -/
def oppColor : PieceColor → PieceColor
  | .red => .black
  | .black => .red

def BOARD_WIDTH : Int := 8

def BOARD_HEIGHT : Int := 9

/-- Position from src/models/Position.ts (board coordinates only; the
screen-coordinate helpers belong to the excluded rendering collaborator). -/
structure Position where
  x : Int
  y : Int
deriving DecidableEq

/-- Position.isValid: `x >= 0 && x <= BOARD_WIDTH && y >= 0 && y <= BOARD_HEIGHT`. -/
def Position.isValid (p : Position) : Bool :=
  decide (0 ≤ p.x ∧ p.x ≤ BOARD_WIDTH ∧ 0 ≤ p.y ∧ p.y ≤ BOARD_HEIGHT)

/-- PieceModel from src/unnamed/part_000: type, color, position, liveness and a
stable id (a string in the source, generated at construction; here ids are just
carried along). -/
structure PieceModel where
  type : PieceType
  color : PieceColor
  position : Position
  isAlive : Bool
  id : String
deriving DecidableEq

/-- GameModel from src/models/GameModel.ts.  The class holds the piece list, the
side to move, the game state, the winner, the check flag, UI selection fields,
the undo history (a list of previous GameModels, hence the nested inductive) and
the PVE configuration fields. -/
inductive GameModel : Type where
  | mk
    (pieces : List PieceModel)
    (currentTurn : PieceColor)
    (gameState : GameState)
    (winner : Option PieceColor)
    (isInCheck : Bool)
    (selectedPieceId : Option String)
    (validMoves : List Position)
    (history : List GameModel)
    (gameMode : GameMode)
    (aiDifficulty : AIDifficulty)
    (aiPlayerColor : PieceColor) : GameModel

def GameModel.pieces : GameModel → List PieceModel
  | .mk ps _ _ _ _ _ _ _ _ _ _ => ps

def GameModel.currentTurn : GameModel → PieceColor
  | .mk _ ct _ _ _ _ _ _ _ _ _ => ct

def GameModel.gameState : GameModel → GameState
  | .mk _ _ gs _ _ _ _ _ _ _ _ => gs

def GameModel.winner : GameModel → Option PieceColor
  | .mk _ _ _ w _ _ _ _ _ _ _ => w

def GameModel.isInCheck : GameModel → Bool
  | .mk _ _ _ _ chk _ _ _ _ _ _ => chk

def GameModel.selectedPieceId : GameModel → Option String
  | .mk _ _ _ _ _ sel _ _ _ _ _ => sel

def GameModel.validMoves : GameModel → List Position
  | .mk _ _ _ _ _ _ vm _ _ _ _ => vm

def GameModel.history : GameModel → List GameModel
  | .mk _ _ _ _ _ _ _ h _ _ _ => h

def GameModel.gameMode : GameModel → GameMode
  | .mk _ _ _ _ _ _ _ _ gmo _ _ => gmo

def GameModel.aiDifficulty : GameModel → AIDifficulty
  | .mk _ _ _ _ _ _ _ _ _ ad _ => ad

def GameModel.aiPlayerColor : GameModel → PieceColor
  | .mk _ _ _ _ _ _ _ _ _ _ apc => apc

/-- Replace the piece list, keeping every other field (the functional image of
mutating the `pieces` entries of a model in place). -/
def GameModel.withPieces : GameModel → List PieceModel → GameModel
  | .mk _ ct gs w chk sel vm h gmo ad apc, ps => .mk ps ct gs w chk sel vm h gmo ad apc

/-- GameModel.clone: pieces cloned by value, every scalar field copied, and the
history deliberately reset to `[]` (GameModel.ts line 86). -/
def GameModel.clone : GameModel → GameModel
  | .mk ps ct gs w chk sel vm _ gmo ad apc => .mk ps ct gs w chk sel vm [] gmo ad apc

/-- GameModel.getPieceAt: the first piece in the list that is alive and sits on
the given square, or null. -/
def GameModel.getPieceAt (gm : GameModel) (x y : Int) : Option PieceModel :=
  gm.pieces.find? fun p => p.isAlive && p.position.x == x && p.position.y == y

/-- GameModel.getPiecesByColor: all live pieces of a color. -/
def GameModel.getPiecesByColor (gm : GameModel) (color : PieceColor) : List PieceModel :=
  gm.pieces.filter fun p => p.isAlive && p.color == color

/-- GameModel.getCurrentTurnPieces. -/
def GameModel.getCurrentTurnPieces (gm : GameModel) : List PieceModel :=
  gm.getPiecesByColor gm.currentTurn

/-- GameModel.switchTurn (functional: returns the updated model). -/
def GameModel.switchTurn : GameModel → GameModel
  | .mk ps ct gs w chk sel vm h gmo ad apc => .mk ps (oppColor ct) gs w chk sel vm h gmo ad apc

/-- The half-open integer interval [lo, hi), in increasing order: the index set
of a JavaScript loop `for (let i = lo; i < hi; i++)`. -/
def intRange (lo hi : Int) : List Int :=
  (List.range (hi - lo).toNat).map fun (i : Nat) => lo + (i : Int)

/-- Mark the first live piece found at the target square (the object returned by
`getPieceAt`) as captured: the functional image of `targetPiece.isAlive = false`. -/
def markFirstDeadAt : List PieceModel → Int → Int → List PieceModel
  | [], _, _ => []
  | q :: rest, tx, ty =>
    if q.isAlive && q.position.x == tx && q.position.y == ty then
      PieceModel.mk q.type q.color q.position false q.id :: rest
    else
      q :: markFirstDeadAt rest tx ty

/-- Set the position of the first piece with the given id: the functional image
of `pieceCopy.position = new Position(targetX, targetY)`. -/
def movePieceById : List PieceModel → String → Int → Int → List PieceModel
  | [], _, _, _ => []
  | q :: rest, pid, tx, ty =>
    if q.id == pid then
      PieceModel.mk q.type q.color (Position.mk tx ty) q.isAlive q.id :: rest
    else
      q :: movePieceById rest pid tx ty

/-- Apply a move the way every simulation site in the source does: mark the live
occupant of the target square (if any) dead, then set the mover's position,
locating the mover by id. -/
def applyMove (piece : PieceModel) (targetX targetY : Int) (gm : GameModel) : GameModel :=
  gm.withPieces (movePieceById (markFirstDeadAt gm.pieces targetX targetY) piece.id targetX targetY)

namespace Rules

/-- Rules.isInPalace: x in [3,4,5] and y in the color's palace ranks. -/
def isInPalace (x y : Int) (color : PieceColor) : Bool :=
  [3, 4, 5].contains x &&
    (match color with
      | .red => [7, 8, 9].contains y
      | .black => [0, 1, 2].contains y)

/-- Rules.isPathClear: every square strictly between origin and target on the
shared rank (checked first) or file is empty; vacuously true off both lines. -/
def isPathClear (piece : PieceModel) (targetX targetY : Int) (gm : GameModel) : Bool :=
  let startX := piece.position.x
  let startY := piece.position.y
  if startY == targetY then
    (intRange (min startX targetX + 1) (max startX targetX)).all fun x =>
      (gm.getPieceAt x startY).isNone
  else if startX == targetX then
    (intRange (min startY targetY + 1) (max startY targetY)).all fun y =>
      (gm.getPieceAt startX y).isNone
  else
    true

/-- The `mountCount` accumulated by Rules.hasExactlyOneCannonMount: the number
of squares strictly between origin and target (on the shared rank, else the
shared file, else nowhere) that hold a live piece. -/
def mountCount (piece : PieceModel) (targetX targetY : Int) (gm : GameModel) : Nat :=
  let startX := piece.position.x
  let startY := piece.position.y
  if startY == targetY then
    ((intRange (min startX targetX + 1) (max startX targetX)).filter fun x =>
      (gm.getPieceAt x startY).isSome).length
  else if startX == targetX then
    ((intRange (min startY targetY + 1) (max startY targetY)).filter fun y =>
      (gm.getPieceAt startX y).isSome).length
  else
    0

/-- Rules.hasExactlyOneCannonMount. -/
def hasExactlyOneCannonMount (piece : PieceModel) (targetX targetY : Int) (gm : GameModel) : Bool :=
  mountCount piece targetX targetY gm == 1

/-- Rules.canMoveWithoutCheck: the per-type pseudo-legal movement test used by
check detection (same geometry as the canMoveXxx helpers but with no self-check
recursion). -/
def canMoveWithoutCheck (piece : PieceModel) (targetX targetY : Int) (gm : GameModel) : Bool :=
  if !(Position.mk targetX targetY).isValid then
    false
  else if (match gm.getPieceAt targetX targetY with
            | some tp => tp.color == piece.color
            | none => false) then
    false
  else
    match piece.type with
    | .king =>
      isInPalace targetX targetY piece.color &&
        (((targetX - piece.position.x).natAbs == 1 && (targetY - piece.position.y).natAbs == 0) ||
          ((targetX - piece.position.x).natAbs == 0 && (targetY - piece.position.y).natAbs == 1))
    | .advisor =>
      isInPalace targetX targetY piece.color &&
        (targetX - piece.position.x).natAbs == 1 && (targetY - piece.position.y).natAbs == 1
    | .elephant =>
      if (piece.color == .red && decide (targetY < 5)) ||
          (piece.color == .black && decide (targetY > 4)) then
        false
      else
        let dx := (targetX - piece.position.x).natAbs
        let dy := (targetY - piece.position.y).natAbs
        if dx == 2 && dy == 2 then
          let eyeX := (piece.position.x + targetX) / 2
          let eyeY := (piece.position.y + targetY) / 2
          (gm.getPieceAt eyeX eyeY).isNone
        else
          false
    | .horse =>
      let hdx := (targetX - piece.position.x).natAbs
      let hdy := (targetY - piece.position.y).natAbs
      if (hdx == 1 && hdy == 2) || (hdx == 2 && hdy == 1) then
        if hdx == 1 then
          (gm.getPieceAt piece.position.x ((piece.position.y + targetY) / 2)).isNone
        else
          (gm.getPieceAt ((piece.position.x + targetX) / 2) piece.position.y).isNone
      else
        false
    | .chariot =>
      if piece.position.x != targetX && piece.position.y != targetY then
        false
      else
        isPathClear piece targetX targetY gm
    | .cannon =>
      if piece.position.x != targetX && piece.position.y != targetY then
        false
      else
        match gm.getPieceAt targetX targetY with
        | some _ => hasExactlyOneCannonMount piece targetX targetY gm
        | none => isPathClear piece targetX targetY gm
    | .soldier =>
      let sdx := (targetX - piece.position.x).natAbs
      let sdy := (targetY - piece.position.y).natAbs
      if sdx + sdy != 1 then
        false
      else if piece.color == .red && decide (piece.position.y > 4) &&
          decide (targetY ≥ piece.position.y) then
        false
      else if piece.color == .black && decide (piece.position.y < 5) &&
          decide (targetY ≤ piece.position.y) then
        false
      else if piece.color == .red && decide (targetY > piece.position.y) then
        false
      else if piece.color == .black && decide (targetY < piece.position.y) then
        false
      else
        true

/-- Rules.isKingFaceToFace: both generals alive, on the same file, with every
square strictly between them empty. -/
def isKingFaceToFace (gm : GameModel) : Bool :=
  match gm.pieces.find? (fun p => p.isAlive && p.type == PieceType.king && p.color == PieceColor.red),
        gm.pieces.find? (fun p => p.isAlive && p.type == PieceType.king && p.color == PieceColor.black) with
  | some redKing, some blackKing =>
    if redKing.position.x != blackKing.position.x then
      false
    else
      let x := redKing.position.x
      let minY := min redKing.position.y blackKing.position.y
      let maxY := max redKing.position.y blackKing.position.y
      (intRange (minY + 1) maxY).all fun y => (gm.getPieceAt x y).isNone
  | _, _ => false

/-- Rules.isInCheck: false when the side has no live general; otherwise true on
facing generals, or when any live opposing piece has a pseudo-legal move onto
the general's square. -/
def isInCheck (color : PieceColor) (gm : GameModel) : Bool :=
  match gm.pieces.find? (fun p => p.isAlive && p.type == PieceType.king && p.color == color) with
  | none => false
  | some king =>
    if isKingFaceToFace gm then
      true
    else
      (gm.getPiecesByColor (oppColor color)).any fun p =>
        canMoveWithoutCheck p king.position.x king.position.y gm

/-- Rules.wouldBeInCheckAfterMove: clone the model, find the mover by id (false
if absent), mark the live occupant of the target dead, move the mover, and ask
isInCheck for the mover's own side. -/
def wouldBeInCheckAfterMove (piece : PieceModel) (targetX targetY : Int) (gm : GameModel) : Bool :=
  let gameCopy := gm.clone
  match gameCopy.pieces.find? (fun p => p.id == piece.id) with
  | none => false
  | some _ => isInCheck piece.color (applyMove piece targetX targetY gameCopy)

/-- Rules.canMoveKing: one orthogonal step inside the own palace, vetoed by
wouldBeInCheckAfterMove. -/
def canMoveKing (piece : PieceModel) (targetX targetY : Int) (gm : GameModel) : Bool :=
  if !isInPalace targetX targetY piece.color then
    false
  else
    let dx := (targetX - piece.position.x).natAbs
    let dy := (targetY - piece.position.y).natAbs
    if (dx == 1 && dy == 0) || (dx == 0 && dy == 1) then
      !wouldBeInCheckAfterMove piece targetX targetY gm
    else
      false

/-- Rules.canMoveAdvisor: one diagonal step inside the own palace, vetoed by
wouldBeInCheckAfterMove. -/
def canMoveAdvisor (piece : PieceModel) (targetX targetY : Int) (gm : GameModel) : Bool :=
  if !isInPalace targetX targetY piece.color then
    false
  else
    let dx := (targetX - piece.position.x).natAbs
    let dy := (targetY - piece.position.y).natAbs
    if dx == 1 && dy == 1 then
      !wouldBeInCheckAfterMove piece targetX targetY gm
    else
      false

/-- Rules.canMoveElephant: a 2x2 diagonal that stays on the own half, with a
free midpoint ("eye"), vetoed by wouldBeInCheckAfterMove. -/
def canMoveElephant (piece : PieceModel) (targetX targetY : Int) (gm : GameModel) : Bool :=
  if piece.color == .red && decide (targetY < 5) then
    false
  else if piece.color == .black && decide (targetY > 4) then
    false
  else
    let dx := (targetX - piece.position.x).natAbs
    let dy := (targetY - piece.position.y).natAbs
    if dx == 2 && dy == 2 then
      let eyeX := (piece.position.x + targetX) / 2
      let eyeY := (piece.position.y + targetY) / 2
      if (gm.getPieceAt eyeX eyeY).isNone then
        !wouldBeInCheckAfterMove piece targetX targetY gm
      else
        false
    else
      false

/-- Rules.canMoveHorse: an L-move with a free blocking square next to the
origin, vetoed by wouldBeInCheckAfterMove. -/
def canMoveHorse (piece : PieceModel) (targetX targetY : Int) (gm : GameModel) : Bool :=
  let dx := (targetX - piece.position.x).natAbs
  let dy := (targetY - piece.position.y).natAbs
  if (dx == 1 && dy == 2) || (dx == 2 && dy == 1) then
    if dx == 1 then
      if (gm.getPieceAt piece.position.x ((piece.position.y + targetY) / 2)).isNone then
        !wouldBeInCheckAfterMove piece targetX targetY gm
      else
        false
    else
      if (gm.getPieceAt ((piece.position.x + targetX) / 2) piece.position.y).isNone then
        !wouldBeInCheckAfterMove piece targetX targetY gm
      else
        false
  else
    false

/-- Rules.canMoveChariot: straight line, clear path, vetoed by
wouldBeInCheckAfterMove. -/
def canMoveChariot (piece : PieceModel) (targetX targetY : Int) (gm : GameModel) : Bool :=
  if piece.position.x != targetX && piece.position.y != targetY then
    false
  else if !isPathClear piece targetX targetY gm then
    false
  else
    !wouldBeInCheckAfterMove piece targetX targetY gm

/-- Rules.canMoveCannon: straight line; a capture needs exactly one mount, a
quiet move needs a clear path.  NOTE: unlike every other piece type this
function does not consult wouldBeInCheckAfterMove. -/
def canMoveCannon (piece : PieceModel) (targetX targetY : Int) (gm : GameModel) : Bool :=
  if piece.position.x != targetX && piece.position.y != targetY then
    false
  else
    match gm.getPieceAt targetX targetY with
    | some _ => hasExactlyOneCannonMount piece targetX targetY gm
    | none => isPathClear piece targetX targetY gm

/-- Rules.canMoveSoldier: one orthogonal step, forward only before the river,
forward or sideways (never backward) after, vetoed by wouldBeInCheckAfterMove. -/
def canMoveSoldier (piece : PieceModel) (targetX targetY : Int) (gm : GameModel) : Bool :=
  let dx := (targetX - piece.position.x).natAbs
  let dy := (targetY - piece.position.y).natAbs
  if dx + dy != 1 then
    false
  else if piece.color == .red && decide (piece.position.y > 4) then
    if decide (targetY ≥ piece.position.y) then
      false
    else
      !wouldBeInCheckAfterMove piece targetX targetY gm
  else if piece.color == .black && decide (piece.position.y < 5) then
    if decide (targetY ≤ piece.position.y) then
      false
    else
      !wouldBeInCheckAfterMove piece targetX targetY gm
  else
    if piece.color == .red && decide (targetY > piece.position.y) then
      false
    else if piece.color == .black && decide (targetY < piece.position.y) then
      false
    else
      !wouldBeInCheckAfterMove piece targetX targetY gm

/-- Rules.canMove: bounds check, own-piece check, then the per-type rule. -/
def canMove (piece : PieceModel) (targetX targetY : Int) (gm : GameModel) : Bool :=
  if !(Position.mk targetX targetY).isValid then
    false
  else if (match gm.getPieceAt targetX targetY with
            | some tp => tp.color == piece.color
            | none => false) then
    false
  else
    match piece.type with
    | .king => canMoveKing piece targetX targetY gm
    | .advisor => canMoveAdvisor piece targetX targetY gm
    | .elephant => canMoveElephant piece targetX targetY gm
    | .horse => canMoveHorse piece targetX targetY gm
    | .chariot => canMoveChariot piece targetX targetY gm
    | .cannon => canMoveCannon piece targetX targetY gm
    | .soldier => canMoveSoldier piece targetX targetY gm

/-- Rules.getValidMoves: scan x = 0..8 (outer) and y = 0..9 (inner), collecting
every target accepted by canMove, in scan order. -/
def getValidMoves (piece : PieceModel) (gm : GameModel) : List Position :=
  (List.range 9).flatMap fun (x : Nat) =>
    (List.range 10).filterMap fun (y : Nat) =>
      if canMove piece (x : Int) (y : Int) gm then some (Position.mk (x : Int) (y : Int)) else none

/-- Rules.checkGameOver: a missing general loses (red checked first); facing
generals award the win to the side to move; a side to move with no legal move
across all its live pieces loses; otherwise the game goes on. -/
def checkGameOver (gm : GameModel) : Option PieceColor :=
  let redKingAlive := gm.pieces.any fun p =>
    p.isAlive && p.type == PieceType.king && p.color == PieceColor.red
  let blackKingAlive := gm.pieces.any fun p =>
    p.isAlive && p.type == PieceType.king && p.color == PieceColor.black
  if !redKingAlive then
    some .black
  else if !blackKingAlive then
    some .red
  else if isKingFaceToFace gm then
    some (if gm.currentTurn == PieceColor.red then PieceColor.red else PieceColor.black)
  else
    let hasValidMove := gm.getCurrentTurnPieces.any fun p =>
      decide ((getValidMoves p gm).length > 0)
    if !hasValidMove then
      some (if gm.currentTurn == PieceColor.red then PieceColor.black else PieceColor.red)
    else
      none

end Rules

/-- The plain-data shape produced by PieceModel.toJSON (src/unnamed/part_000):
id, type, color, a `{x, y}` position object, and the liveness flag. -/
structure PieceJSON where
  id : String
  type : PieceType
  color : PieceColor
  posX : Int
  posY : Int
  isAlive : Bool
deriving DecidableEq

/-- PieceModel.toJSON. -/
def PieceModel.toJSON (p : PieceModel) : PieceJSON :=
  PieceJSON.mk p.id p.type p.color p.position.x p.position.y p.isAlive

/-- PieceModel.fromJSON. -/
def PieceModel.fromJSON (data : PieceJSON) : PieceModel :=
  PieceModel.mk data.type data.color (Position.mk data.posX data.posY) data.isAlive data.id

/-- The plain-data shape produced by GameModel.toJSON (GameModel.ts lines
95-110): serialized pieces, the scalar fields, the recursively serialized
history, and the PVE configuration fields. -/
inductive GameJSON : Type where
  | mk
    (pieces : List PieceJSON)
    (currentTurn : PieceColor)
    (gameState : GameState)
    (winner : Option PieceColor)
    (isInCheck : Bool)
    (selectedPieceId : Option String)
    (validMoves : List Position)
    (history : List GameJSON)
    (gameMode : GameMode)
    (aiDifficulty : AIDifficulty)
    (aiPlayerColor : PieceColor) : GameJSON

/-- GameModel.toJSON: every field serialized structurally, history recursively. -/
def GameModel.toJSON : GameModel → GameJSON
  | .mk ps ct gs w chk sel vm hist gmo ad apc =>
    GameJSON.mk (ps.map PieceModel.toJSON) ct gs w chk sel vm
      (hist.attach.map fun h => GameModel.toJSON h.1) gmo ad apc
termination_by gm => sizeOf gm
decreasing_by
  simp only [GameModel.mk.sizeOf_spec]
  have := List.sizeOf_lt_of_mem h.2
  omega

/-- GameModel.fromJSON: rebuild the pieces and history recursively and restore
every scalar field.  (In the source the history, gameMode, aiDifficulty and
aiPlayerColor restores are guarded by truthiness checks; on data produced by
toJSON all four guards pass — arrays and the non-empty enum strings are truthy —
so the restore is unconditional.) -/
def GameModel.fromJSON : GameJSON → GameModel
  | .mk ps ct gs w chk sel vm hist gmo ad apc =>
    GameModel.mk (ps.map PieceModel.fromJSON) ct gs w chk sel vm
      (hist.attach.map fun h => GameModel.fromJSON h.1) gmo ad apc
termination_by d => sizeOf d
decreasing_by
  simp only [GameJSON.mk.sizeOf_spec]
  have := List.sizeOf_lt_of_mem h.2
  omega

/-- A JavaScript number used as a search score: an integer or one of the two
infinities (`-Infinity` initializes best scores and alpha, `Infinity`
initializes beta). -/
inductive EInt where
  | negInf
  | fin (n : Int)
  | posInf
deriving DecidableEq

/-- The `<=` comparison on scores. -/
def EInt.le : EInt → EInt → Bool
  | .negInf, _ => true
  | _, .posInf => true
  | .posInf, _ => false
  | .fin _, .negInf => false
  | .fin a, .fin b => decide (a ≤ b)

/-- The `<` comparison on scores. -/
def EInt.lt (a b : EInt) : Bool := !EInt.le b a

/-- Math.max on scores. -/
def EInt.jmax (a b : EInt) : EInt := if EInt.lt a b then b else a

/-- Math.min on scores. -/
def EInt.jmin (a b : EInt) : EInt := if EInt.lt b a then b else a

/-- The early-termination test `Math.abs(score) > 10000` (an infinite score has
infinite absolute value, so it also triggers the cut-off). -/
def EInt.absGt10000 : EInt → Bool
  | .negInf => true
  | .posInf => true
  | .fin n => decide ((10000 : Int) < n.natAbs)

/-- A candidate move: the moving piece together with its target square (the
`{ piece, target }` records built by getAllValidMoves in both AI variants). -/
structure Move where
  piece : PieceModel
  target : Position
deriving DecidableEq

/-- The first piece whose id matches, then kill a live enemy occupant of the
target and relocate the piece: AIWorker.executeMove (src/unnamed/part_003 lines
554-571).  A missing id leaves the model unchanged. -/
def executeMove (move : Move) (gm : GameModel) : GameModel :=
  match gm.pieces.find? (fun p => p.id == move.piece.id) with
  | none => gm
  | some piece =>
    let gm1 :=
      match gm.getPieceAt move.target.x move.target.y with
      | some targetPiece =>
        if targetPiece.color != piece.color then
          gm.withPieces (markFirstDeadAt gm.pieces move.target.x move.target.y)
        else
          gm
      | none => gm
    gm1.withPieces (movePieceById gm1.pieces move.piece.id move.target.x move.target.y)

/-- The simulation shared by AI.wouldBeCheck, AIWorker.wouldBeCheck and
AI.evaluateMove: clone, find the mover by id, kill the live occupant of the
target, relocate the mover. -/
def simulateOnClone (move : Move) (gm : GameModel) : Option GameModel :=
  let gameCopy := gm.clone
  match gameCopy.pieces.find? (fun p => p.id == move.piece.id) with
  | none => none
  | some _ => some (applyMove move.piece move.target.x move.target.y gameCopy)

/-- wouldBeCheck (identical in part_003 lines 594-614 and part_004 lines
204-224): simulate the move on a clone and ask whether the opponent of the side
to move is then in check. -/
def wouldBeCheck (move : Move) (gm : GameModel) : Bool :=
  match simulateOnClone move gm with
  | none => false
  | some g1 => Rules.isInCheck (oppColor gm.currentTurn) g1

/-- `Math.floor(Math.random() * list.length)` picks an index in [0, length);
the draw is modelled as an oracle natural number reduced mod the length.
chooseRandomMove (identical in both AI variants) then returns that element
(none only on an empty list, where the source would index out of range). -/
def chooseRandomMove (validMoves : List Move) (ridx : Nat) : Option Move :=
  validMoves.get? (ridx % validMoves.length)

/-- getPieceValue (identical tables in part_003 lines 320-333 and part_004
lines 183-196). -/
def getPieceValue : PieceType → Int
  | .king => 1000
  | .advisor => 100
  | .elephant => 150
  | .horse => 300
  | .chariot => 500
  | .cannon => 250
  | .soldier => 50

namespace AI

/-- AI.getAllValidMoves (part_004 lines 54-71): every legal move of every live
piece of the AI-controlled color, pieces in list order, targets in scan order. -/
def getAllValidMoves (gm : GameModel) : List Move :=
  (gm.pieces.filter fun p => p.isAlive && p.color == gm.aiPlayerColor).flatMap fun p =>
    (Rules.getValidMoves p gm).map fun t => Move.mk p t

/-- AI.chooseMediumMove: prefer checking moves, then capturing moves, then any
move, picking uniformly inside the chosen tier. -/
def chooseMediumMove (validMoves : List Move) (gm : GameModel) (ridx : Nat) : Option Move :=
  let checkMoves := validMoves.filter fun m => wouldBeCheck m gm
  if decide (checkMoves.length > 0) then
    chooseRandomMove checkMoves ridx
  else
    let captureMoves := validMoves.filter fun m => (gm.getPieceAt m.target.x m.target.y).isSome
    if decide (captureMoves.length > 0) then
      chooseRandomMove captureMoves ridx
    else
      chooseRandomMove validMoves ridx

/-- AI.evaluateMove (part_004 lines 137-176): simulate on a clone (0 when the
mover's id is absent), then score capture value, check bonus and AI-side
mobility with the AI_CONFIG weights. -/
def evaluateMove (move : Move) (gm : GameModel) : Int :=
  match simulateOnClone move gm with
  | none => 0
  | some gameCopy =>
    let captured := gm.clone.getPieceAt move.target.x move.target.y
    let captureScore : Int :=
      match captured with
      | some targetPiece => getPieceValue targetPiece.type * 100
      | none => 0
    let checkScore : Int :=
      if Rules.isInCheck (oppColor gm.currentTurn) gameCopy then 200 else 0
    let mobility : Int :=
      ((gameCopy.getPiecesByColor gm.aiPlayerColor).map fun p =>
        ((Rules.getValidMoves p gameCopy).length : Int)).sum
    captureScore + checkScore + mobility * 10

/-- AI.chooseHardMove (part_004 lines 115-129): best = validMoves[0], then keep
any move whose evaluation strictly beats the best score so far (initially
-Infinity). -/
def chooseHardMove (validMoves : List Move) (gm : GameModel) : Option Move :=
  match validMoves with
  | [] => none
  | first :: _ =>
    let best := validMoves.foldl
      (fun acc m =>
        let score := EInt.fin (evaluateMove m gm)
        if EInt.lt acc.2 score then (m, score) else acc)
      (first, EInt.negInf)
    some best.1

/-- AI.makeMove (part_004 lines 16-47): none when it is not the AI side's turn
or the AI side has no legal move; otherwise the difficulty-selected move.  The
`sleep(THINK_TIME)` is pure wall-clock pacing with no effect on the result. -/
def makeMove (gm : GameModel) (ridx : Nat) : Option Move :=
  if gm.currentTurn != gm.aiPlayerColor then
    none
  else
    let validMoves := getAllValidMoves gm
    if validMoves.length == 0 then
      none
    else
      match gm.aiDifficulty with
      | .easy => chooseRandomMove validMoves ridx
      | .medium => chooseMediumMove validMoves gm ridx
      | .hard => chooseHardMove validMoves gm

end AI

/-- The sources of nondeterminism observed by one AIWorker hard-tier run:
`perms k` is the order produced by the k-th call to the randomized sortMoves;
`deadline` is the index of the first `Date.now() - startTime > timeLimit` check
that reports the budget exceeded (wall-clock time is monotone, so every later
check also reports exceeded); `pickCoin` is the outcome of the single
`Math.random() < 0.05` test in selectMoveWithRandomness and `pickIdx` the index
draw of that branch; `ridx` is the index draw of chooseRandomMove for the easy
and medium tiers. -/
structure SearchOracle where
  perms : Nat → List Nat
  deadline : Nat
  pickCoin : Bool
  pickIdx : Nat
  ridx : Nat

/-- Reorder a list by an index list; an index list that is not a permutation of
the valid range denotes the identity reordering. -/
def applyPerm (p : List Nat) (l : List α) : List α :=
  if List.Perm p (List.range l.length) then p.filterMap (fun i => l.get? i) else l

namespace AIWorker

/-- AIWorker.getAllValidMoves (part_003 lines 53-70): every legal move of every
live piece of the side to move. -/
def getAllValidMoves (gm : GameModel) : List Move :=
  (gm.pieces.filter fun p => p.isAlive && p.color == gm.currentTurn).flatMap fun p =>
    (Rules.getValidMoves p gm).map fun t => Move.mk p t

/-- AIWorker.getAllValidMovesForCurrentPlayer (part_003 lines 574-591): same
enumeration as getAllValidMoves, duplicated in the source. -/
def getAllValidMovesForCurrentPlayer (gm : GameModel) : List Move :=
  (gm.pieces.filter fun p => p.isAlive && p.color == gm.currentTurn).flatMap fun p =>
    (Rules.getValidMoves p gm).map fun t => Move.mk p t

/-- AIWorker.chooseMediumMove (part_003 lines 79-97): prefer checking moves,
then capturing moves, then any move. -/
def chooseMediumMove (validMoves : List Move) (gm : GameModel) (ridx : Nat) : Option Move :=
  let checkMoves := validMoves.filter fun m => wouldBeCheck m gm
  if decide (checkMoves.length > 0) then
    chooseRandomMove checkMoves ridx
  else
    let captureMoves := validMoves.filter fun m => (gm.getPieceAt m.target.x m.target.y).isSome
    if decide (captureMoves.length > 0) then
      chooseRandomMove captureMoves ridx
    else
      chooseRandomMove validMoves ridx

def positionValuesKing : List (List Int) :=
  [ [0, 0, 0, 0, 0, 0, 0, 0, 0],
    [0, 0, 0, 0, 0, 0, 0, 0, 0],
    [0, 0, 0, 0, 0, 0, 0, 0, 0],
    [0, 0, 0, 0, 0, 0, 0, 0, 0],
    [0, 0, 0, 0, 0, 0, 0, 0, 0],
    [0, 0, 0, 10, 10, 10, 0, 0, 0],
    [0, 0, 0, 10, 20, 10, 0, 0, 0],
    [0, 0, 0, 10, 10, 10, 0, 0, 0],
    [0, 0, 0, 0, 0, 0, 0, 0, 0] ]

def positionValuesAdvisor : List (List Int) :=
  [ [0, 0, 0, 0, 0, 0, 0, 0, 0],
    [0, 0, 0, 0, 0, 0, 0, 0, 0],
    [0, 0, 0, 0, 0, 0, 0, 0, 0],
    [0, 0, 0, 0, 0, 0, 0, 0, 0],
    [0, 0, 0, 0, 0, 0, 0, 0, 0],
    [0, 0, 0, 5, 0, 5, 0, 0, 0],
    [0, 0, 0, 0, 15, 0, 0, 0, 0],
    [0, 0, 0, 5, 0, 5, 0, 0, 0],
    [0, 0, 0, 0, 0, 0, 0, 0, 0] ]

def positionValuesElephant : List (List Int) :=
  [ [0, 0, 0, 0, 0, 0, 0, 0, 0],
    [0, 0, 0, 0, 0, 0, 0, 0, 0],
    [0, 0, 0, 0, 0, 0, 0, 0, 0],
    [0, 0, 0, 0, 0, 0, 0, 0, 0],
    [0, 0, 0, 0, 0, 0, 0, 0, 0],
    [0, 0, 10, 0, 0, 0, 10, 0, 0],
    [0, 0, 0, 0, 0, 0, 0, 0, 0],
    [0, 20, 0, 0, 0, 0, 0, 20, 0],
    [0, 0, 0, 0, 30, 0, 0, 0, 0] ]

def positionValuesHorse : List (List Int) :=
  [ [0, 5, 10, 15, 20, 15, 10, 5, 0],
    [5, 15, 25, 30, 35, 30, 25, 15, 5],
    [10, 25, 35, 40, 45, 40, 35, 25, 10],
    [15, 30, 40, 45, 50, 45, 40, 30, 15],
    [20, 35, 45, 50, 55, 50, 45, 35, 20],
    [15, 30, 40, 45, 50, 45, 40, 30, 15],
    [10, 25, 35, 40, 45, 40, 35, 25, 10],
    [5, 15, 25, 30, 35, 30, 25, 15, 5],
    [0, 5, 10, 15, 20, 15, 10, 5, 0] ]

def positionValuesChariot : List (List Int) :=
  [ [5, 5, 5, 5, 5, 5, 5, 5, 5],
    [5, 10, 10, 10, 10, 10, 10, 10, 5],
    [5, 10, 15, 15, 15, 15, 15, 10, 5],
    [5, 10, 15, 20, 20, 20, 15, 10, 5],
    [5, 10, 15, 20, 25, 20, 15, 10, 5],
    [5, 10, 15, 20, 20, 20, 15, 10, 5],
    [5, 10, 15, 15, 15, 15, 15, 10, 5],
    [5, 10, 10, 10, 10, 10, 10, 10, 5],
    [5, 5, 5, 5, 5, 5, 5, 5, 5] ]

def positionValuesCannon : List (List Int) :=
  [ [2, 2, 2, 2, 2, 2, 2, 2, 2],
    [2, 5, 5, 5, 5, 5, 5, 5, 2],
    [2, 5, 10, 10, 10, 10, 10, 5, 2],
    [2, 5, 10, 15, 15, 15, 10, 5, 2],
    [2, 5, 10, 15, 20, 15, 10, 5, 2],
    [2, 5, 10, 15, 15, 15, 10, 5, 2],
    [2, 5, 10, 10, 10, 10, 10, 5, 2],
    [2, 5, 5, 5, 5, 5, 5, 5, 2],
    [2, 2, 2, 2, 2, 2, 2, 2, 2] ]

def positionValuesSoldier : List (List Int) :=
  [ [0, 0, 0, 0, 0, 0, 0, 0, 0],
    [10, 10, 10, 10, 10, 10, 10, 10, 10],
    [15, 15, 15, 15, 15, 15, 15, 15, 15],
    [20, 20, 20, 20, 20, 20, 20, 20, 20],
    [30, 30, 30, 30, 30, 30, 30, 30, 30],
    [50, 50, 50, 50, 50, 50, 50, 50, 50],
    [70, 70, 70, 70, 70, 70, 70, 70, 70],
    [100, 100, 100, 100, 100, 100, 100, 100, 100],
    [200, 200, 200, 200, 200, 200, 200, 200, 200] ]

/-- The 9-row position-value table of each piece type (part_003 lines 338-416). -/
def positionValues : PieceType → List (List Int)
  | .king => positionValuesKing
  | .advisor => positionValuesAdvisor
  | .elephant => positionValuesElephant
  | .horse => positionValuesHorse
  | .chariot => positionValuesChariot
  | .cannon => positionValuesCannon
  | .soldier => positionValuesSoldier

/-- JavaScript array indexing with an arbitrary integer: `arr[i]` is undefined
for negative or too-large i. -/
def listGetI (l : List α) (i : Int) : Option α :=
  if decide (i < 0) then none else l.get? i.toNat

/-- AIWorker.getPositionValue (part_003 lines 336-430): red reads row
`position.y` of the type's table, black reads row `8 - position.y`; a row or
entry outside the table yields 0. -/
def getPositionValue (piece : PieceModel) : Int :=
  let y : Int := if piece.color == PieceColor.red then piece.position.y else 8 - piece.position.y
  match listGetI (positionValues piece.type) y with
  | none => 0
  | some row => (listGetI row piece.position.x).getD 0

/-- AIWorker.getSafetyValue (part_003 lines 433-459): for every opposing live
piece whose legal moves hit this piece's square and whose value is strictly
lower, subtract half the value difference. -/
def getSafetyValue (piece : PieceModel) (gm : GameModel) : Int :=
  ((gm.getPiecesByColor (oppColor piece.color)).map fun opponentPiece =>
    let isAttacked := (Rules.getValidMoves opponentPiece gm).any fun mv =>
      mv.x == piece.position.x && mv.y == piece.position.y
    if isAttacked then
      let attackerValue := getPieceValue opponentPiece.type
      let defenderValue := getPieceValue piece.type
      if decide (attackerValue < defenderValue) then
        -((defenderValue - attackerValue) / 2)
      else
        0
    else
      0).sum

/-- AIWorker.evaluateControlArea (part_003 lines 462-480): one point per legal
move, plus two extra points per move landing in the central region
x in [3,5], y in [3,5]. -/
def evaluateControlArea (gm : GameModel) (color : PieceColor) : Int :=
  ((gm.getPiecesByColor color).map fun piece =>
    let moves := Rules.getValidMoves piece gm
    ((moves.length : Int) +
      ((moves.filter fun mv =>
        decide (3 ≤ mv.x) && decide (mv.x ≤ 5) && decide (3 ≤ mv.y) && decide (mv.y ≤ 5)).length : Int) * 2)).sum

/-- AIWorker.evaluateKingSafety (part_003 lines 483-528): -1000 when the
general is gone; otherwise -100 when in check, minus 20 per (adjacent square
inside x in [0,8], y in [0,8], attacking piece) pair. -/
def evaluateKingSafety (gm : GameModel) (color : PieceColor) : Int :=
  match gm.pieces.find? (fun p => p.type == PieceType.king && p.color == color && p.isAlive) with
  | none => -1000
  | some king =>
    let checkPenalty : Int := if Rules.isInCheck color gm then -100 else 0
    let kingArea : List Position :=
      [ Position.mk (king.position.x - 1) king.position.y,
        Position.mk (king.position.x + 1) king.position.y,
        Position.mk king.position.x (king.position.y - 1),
        Position.mk king.position.x (king.position.y + 1) ]
    let opponentPieces := gm.getPiecesByColor (oppColor color)
    let attackedSquares : Nat :=
      (kingArea.map fun square =>
        if decide (0 ≤ square.x) && decide (square.x ≤ 8) &&
            decide (0 ≤ square.y) && decide (square.y ≤ 8) then
          (opponentPieces.filter fun piece =>
            (Rules.getValidMoves piece gm).any fun mv =>
              mv.x == square.x && mv.y == square.y).length
        else
          0).sum
    checkPenalty - (attackedSquares : Int) * 20

/-- AIWorker.evaluatePosition (part_003 lines 271-317): material + position +
safety sums for both sides, check bonuses, mobility, control area, and king
safety, all from the root searcher's perspective. -/
def evaluatePosition (gm : GameModel) (aiColor : PieceColor) : Int :=
  let opponentColor := oppColor aiColor
  let aiPieces := gm.getPiecesByColor aiColor
  let opponentPieces := gm.getPiecesByColor opponentColor
  let material : Int :=
    (aiPieces.map fun p => getPieceValue p.type + getPositionValue p + getSafetyValue p gm).sum
      - (opponentPieces.map fun p => getPieceValue p.type + getPositionValue p + getSafetyValue p gm).sum
  let checkScore : Int :=
    (if Rules.isInCheck opponentColor gm then 500 else 0)
      - (if Rules.isInCheck aiColor gm then 500 else 0)
  let aiMobility : Int := (aiPieces.map fun p => ((Rules.getValidMoves p gm).length : Int)).sum
  let opponentMobility : Int :=
    (opponentPieces.map fun p => ((Rules.getValidMoves p gm).length : Int)).sum
  material + checkScore + (aiMobility - opponentMobility) * 10
    + (evaluateControlArea gm aiColor - evaluateControlArea gm opponentColor) * 20
    + evaluateKingSafety gm aiColor * 300 - evaluateKingSafety gm opponentColor * 300

/-- AIWorker.sortMoves (part_003 lines 531-552) sorts with a comparator that
prefers captures, then checking moves, and otherwise returns
`Math.random() - 0.5`.  Such a comparator is not a consistent comparison
function, and ECMAScript leaves the resulting order of Array.prototype.sort
implementation-defined in that case, so the outcome is modelled as an
oracle-chosen reordering of the move list: the k-th sort call of a run uses the
index list `o.perms k`. -/
def sortMoves (perms : Nat → List Nat) (sortCalls : Nat) (moves : List Move)
    (_gm : GameModel) : List Move :=
  applyPerm (perms sortCalls) moves

/-- The maximizing loop of AIWorker.minimax (part_003 lines 209-237): clone,
execute, switch turn, recurse, raise maxScore and alpha, and cut off as soon as
beta <= alpha.  `next` is the recursion one depth down; the Nat argument counts
sortMoves calls so the oracle can be indexed. -/
def abMax (next : GameModel → EInt → EInt → Nat → EInt × Nat) (gm : GameModel) :
    List Move → EInt → EInt → EInt → Nat → EInt × Nat
  | [], maxScore, _, _, sc => (maxScore, sc)
  | move :: rest, maxScore, alpha, beta, sc =>
    let gameCopy := (executeMove move gm.clone).switchTurn
    let res := next gameCopy alpha beta sc
    let maxScore1 := EInt.jmax maxScore res.1
    let alpha1 := EInt.jmax alpha res.1
    if EInt.le beta alpha1 then
      (maxScore1, res.2)
    else
      abMax next gm rest maxScore1 alpha1 beta res.2

/-- The minimizing loop of AIWorker.minimax (part_003 lines 238-267): lower
minScore and beta, cut off as soon as beta <= alpha. -/
def abMin (next : GameModel → EInt → EInt → Nat → EInt × Nat) (gm : GameModel) :
    List Move → EInt → EInt → EInt → Nat → EInt × Nat
  | [], minScore, _, _, sc => (minScore, sc)
  | move :: rest, minScore, alpha, beta, sc =>
    let gameCopy := (executeMove move gm.clone).switchTurn
    let res := next gameCopy alpha beta sc
    let minScore1 := EInt.jmin minScore res.1
    let beta1 := EInt.jmin beta res.1
    if EInt.le beta1 alpha then
      (minScore1, res.2)
    else
      abMin next gm rest minScore1 alpha beta1 res.2

/-- AIWorker.minimax (part_003 lines 200-268): static evaluation at depth 0 or
with no legal move, otherwise the alpha-beta loop over the sorted moves. -/
def minimax (perms : Nat → List Nat) (aiColor : PieceColor) (depth : Nat) (gm : GameModel)
    (alpha beta : EInt) (isMaximizingPlayer : Bool) (sc : Nat) : EInt × Nat :=
  match depth with
  | 0 => (EInt.fin (evaluatePosition gm aiColor), sc)
  | d + 1 =>
    let validMoves := getAllValidMovesForCurrentPlayer gm
    if validMoves.length == 0 then
      (EInt.fin (evaluatePosition gm aiColor), sc)
    else
      let sortedMoves := sortMoves perms sc validMoves gm
      if isMaximizingPlayer then
        abMax (fun g a b s => minimax perms aiColor d g a b false s) gm sortedMoves
          EInt.negInf alpha beta (sc + 1)
      else
        abMin (fun g a b s => minimax perms aiColor d g a b true s) gm sortedMoves
          EInt.posInf alpha beta (sc + 1)

/-- Stable insertion into a list sorted by strictly descending score: an
element passes over exactly the strictly greater scores, so equal scores keep
their relative order. -/
def insertScoredDesc (m : Move × EInt) : List (Move × EInt) → List (Move × EInt)
  | [] => [m]
  | x :: xs => if EInt.lt m.2 x.2 then x :: insertScoredDesc m xs else m :: x :: xs

/-- The in-place `scoredMoves.sort((a, b) => b.score - a.score)`:
Array.prototype.sort is stable and this comparator is consistent (the NaN it
returns on two infinite scores is treated as 0, i.e. as a tie), so the result
is a stable descending sort by score. -/
def sortByScoreDesc : List (Move × EInt) → List (Move × EInt)
  | [] => []
  | x :: xs => insertScoredDesc x (sortByScoreDesc xs)

/-- AIWorker.selectMoveWithRandomness (part_003 lines 172-197): sort by score
descending, take the top five as candidates, and either return the top move or
(when the 5% test succeeded and there are at least two candidates) a uniformly
drawn candidate. -/
def selectMoveWithRandomness (scoredMoves : List (Move × EInt)) (pickCoin : Bool)
    (pickIdx : Nat) : Option (Move × EInt) :=
  let sorted := sortByScoreDesc scoredMoves
  let candidates := sorted.take 5
  if pickCoin && decide (candidates.length > 1) then
    candidates.get? (pickIdx % candidates.length)
  else
    sorted.head?

/-- The `Math.abs(scoredMoves[0].score) > 10000` early-termination test of the
deepening loop (false on an empty list, where the source would fault; every
call site passes a non-empty list). -/
def topAbsGt10000 : List (Move × EInt) → Bool
  | [] => false
  | (_, s) :: _ => s.absGt10000

/-- The `scoredMoves.forEach` body of one deepening iteration (part_003 lines
135-155): each iteration first reads the clock (one check index); once the
budget is exceeded the remaining scores are left unchanged, otherwise the move
is simulated and scored by minimax at depth - 1 with a full window. -/
def evalDepthMoves (perms : Nat → List Nat) (deadline : Nat) (aiColor : PieceColor)
    (gm : GameModel) (depth : Nat) :
    List (Move × EInt) → Nat → Nat → List (Move × EInt) × Nat × Nat
  | [], cc, sc => ([], cc, sc)
  | (move, s) :: rest, cc, sc =>
    if deadline ≤ cc then
      let res := evalDepthMoves perms deadline aiColor gm depth rest (cc + 1) sc
      ((move, s) :: res.1, res.2)
    else
      let gameCopy := (executeMove move gm.clone).switchTurn
      let scored := minimax perms aiColor (depth - 1) gameCopy EInt.negInf EInt.posInf false sc
      let res := evalDepthMoves perms deadline aiColor gm depth rest (cc + 1) scored.2
      ((move, scored.1) :: res.1, res.2)

/-- The `for (let depth = 1; depth <= maxDepth; depth++)` loop of
iterativeDeepening (part_003 lines 128-164): a clock check at the top of each
iteration (break when exceeded), the per-move evaluation pass, the stable
re-sort by descending score, and the forced-win early termination. -/
def idLoop (perms : Nat → List Nat) (deadline : Nat) (aiColor : PieceColor) (gm : GameModel) :
    List Nat → List (Move × EInt) → Nat → Nat → List (Move × EInt) × Nat × Nat
  | [], scoredMoves, cc, sc => (scoredMoves, cc, sc)
  | depth :: restDepths, scoredMoves, cc, sc =>
    if deadline ≤ cc then
      (scoredMoves, cc + 1, sc)
    else
      let res := evalDepthMoves perms deadline aiColor gm depth scoredMoves (cc + 1) sc
      let sorted := sortByScoreDesc res.1
      if topAbsGt10000 sorted then
        (sorted, res.2)
      else
        idLoop perms deadline aiColor gm restDepths sorted res.2.1 res.2.2

/-- AIWorker.iterativeDeepening (part_003 lines 107-169): one initial sortMoves
call (oracle index 0), scores initialized to -Infinity, the deepening loop for
depths 1..6, and the final randomized selection. -/
def iterativeDeepening (gm : GameModel) (validMoves : List Move) (aiColor : PieceColor)
    (perms : Nat → List Nat) (deadline : Nat) (pickCoin : Bool) (pickIdx : Nat) :
    Option (Move × EInt) :=
  let sortedMoves := sortMoves perms 0 validMoves gm
  let scoredMoves := sortedMoves.map fun m => (m, EInt.negInf)
  let res := idLoop perms deadline aiColor gm [1, 2, 3, 4, 5, 6] scoredMoves 0 1
  selectMoveWithRandomness res.1 pickCoin pickIdx

/-- AIWorker.chooseHardMove (part_003 lines 100-104). -/
def chooseHardMove (validMoves : List Move) (gm : GameModel) (aiColor : PieceColor)
    (o : SearchOracle) : Option Move :=
  (iterativeDeepening gm validMoves aiColor o.perms o.deadline o.pickCoin o.pickIdx).map
    Prod.fst

/-- AIWorker.makeMove (part_003 lines 12-50): revive the model from its JSON
form, return none off-turn or with no legal move, and otherwise dispatch on the
difficulty tier. -/
def makeMove (gameModelData : GameJSON) (aiColor : PieceColor) (difficulty : AIDifficulty)
    (o : SearchOracle) : Option Move :=
  let gameModel := GameModel.fromJSON gameModelData
  if gameModel.currentTurn != aiColor then
    none
  else
    let validMoves := getAllValidMoves gameModel
    if validMoves.length == 0 then
      none
    else
      match difficulty with
      | .easy => chooseRandomMove validMoves o.ridx
      | .medium => chooseMediumMove validMoves gameModel o.ridx
      | .hard => chooseHardMove validMoves gameModel aiColor o

end AIWorker

/-! Concrete states used by the witnesses and counterexamples below. -/

/-- Build a live piece. -/
def mkPiece (t : PieceType) (c : PieceColor) (x y : Int) (pid : String) : PieceModel :=
  PieceModel.mk t c (Position.mk x y) true pid

/-- Build a dead (captured) piece. -/
def mkDeadPiece (t : PieceType) (c : PieceColor) (x y : Int) (pid : String) : PieceModel :=
  PieceModel.mk t c (Position.mk x y) false pid

/-- A playing-state model over a piece list, red to move, PVP defaults. -/
def mkState (ps : List PieceModel) (turn : PieceColor) : GameModel :=
  GameModel.mk ps turn .playing none false none [] [] .pvp .medium .black

/-- The red cannon of the C1 failing input. -/
def c1Cannon : PieceModel := mkPiece .cannon .red 4 5 "rc"

/-- C1 failing input: the red cannon on the e-file is the only piece between
the red general at (4,9) and the black chariot at (4,0); the black general
stands off-file at (3,0); red to move. -/
def c1Gm : GameModel :=
  mkState
    [mkPiece .king .red 4 9 "rk", c1Cannon, mkPiece .chariot .black 4 0 "bc",
     mkPiece .king .black 3 0 "bk"]
    .red

/-- Facing generals on the open e-file, red to move (used for C3 and C10). -/
def faceGm : GameModel :=
  mkState [mkPiece .king .red 4 9 "rk", mkPiece .king .black 4 0 "bk"] .red

/-- C4 counterexample: both generals have been captured (liveness false), one
live red soldier remains, red to move. -/
def c4DeadGm : GameModel :=
  mkState
    [mkDeadPiece .king .red 4 9 "rk", mkDeadPiece .king .black 4 0 "bk",
     mkPiece .soldier .red 0 6 "rs"]
    .red

/-- C4 witness state: the black general is captured, the red one alive. -/
def c4wGm : GameModel :=
  mkState [mkPiece .king .red 4 9 "rk", mkDeadPiece .king .black 4 0 "bk"] .red

/-- The red cannon of the C5 witness. -/
def c5Cannon : PieceModel := mkPiece .cannon .red 4 5 "rc"

/-- C5 witness state: red cannon at (4,5), its screen at (4,3), a black chariot
target at (4,1). -/
def c5Gm : GameModel :=
  mkState
    [c5Cannon, mkPiece .soldier .red 4 3 "rs", mkPiece .chariot .black 4 1 "bc"]
    .red

/-- C7/C8 two-king state: the generals off-file at (4,9) and (3,0). -/
def twoKingsPieces : List PieceModel :=
  [mkPiece .king .red 4 9 "rk", mkPiece .king .black 3 0 "bk"]

/-- C7 board state, red to move (the red general has exactly the two legal
moves (4,8) and (5,9), in that generation order; (3,9) is vetoed because it
would face the black general). -/
def c7Gm : GameModel := mkState twoKingsPieces .red

/-- The serialized form handed to the worker. -/
def c7Data : GameJSON := GameModel.toJSON c7Gm

/-- Identity reordering for every sort call. -/
def c7PermId : Nat → List Nat := fun _ => [0, 1]

/-- Swapped reordering for every sort call. -/
def c7PermSwap : Nat → List Nat := fun _ => [1, 0]

/-- C7 counterexample run A: budget exhausted at the very first clock check,
5% pick disabled, identity sort order. -/
def c7OA : SearchOracle := SearchOracle.mk c7PermId 0 false 0 0

/-- C7 counterexample run B: identical except the randomized sort produced the
swapped order. -/
def c7OB : SearchOracle := SearchOracle.mk c7PermSwap 0 false 0 0

/-- C7 witness run 1: pick branch disabled, pick index 5. -/
def c7O1 : SearchOracle := SearchOracle.mk c7PermId 0 false 5 0

/-- C7 witness run 2: same sort orders and deadline, pick index 77. -/
def c7O2 : SearchOracle := SearchOracle.mk c7PermId 0 false 77 3

/-- C8 counterexample: red (the side to move) has legal moves, but the AI
controls black, so AI.makeMove is called off-turn. -/
def c8Gm : GameModel :=
  GameModel.mk twoKingsPieces .red .playing none false none [] [] .pve .easy .black

/-- C8 witness: the AI controls red and red is to move. -/
def c8wGm : GameModel :=
  GameModel.mk twoKingsPieces .red .playing none false none [] [] .pve .easy .red

/-- C6 counterexample pieces: a black soldier on (0,0) and a red soldier on the
mirrored square (0,9) claimed by the spec. -/
def c6BlackSoldier : PieceModel := mkPiece .soldier .black 0 0 "b"

def c6RedSoldier : PieceModel := mkPiece .soldier .red 0 9 "r"

/-- All 90 board squares in the file-major scan order of getValidMoves. -/
def allSquares : List Position :=
  (List.range 9).flatMap fun (x : Nat) =>
    (List.range 10).map fun (y : Nat) => Position.mk (x : Int) (y : Int)

/-! Helper lemmas shared by the claim theorems. -/

/-- PieceModel serialization round-trips exactly. -/
theorem piece_roundtrip (p : PieceModel) : PieceModel.fromJSON (PieceModel.toJSON p) = p := rfl

/-- GameModel serialization round-trips exactly (including the history, by
induction on the nesting). -/
theorem gm_roundtrip (m : GameModel) : GameModel.fromJSON (GameModel.toJSON m) = m := by
  induction m using GameModel.toJSON.induct with
  | _ ps ct gs w chk sel vm hist gmo ad apc ih =>
    rw [GameModel.toJSON, List.attach_map_val, GameModel.fromJSON, List.attach_map_val,
      List.map_map, List.map_map]
    have h1 : ps.map (PieceModel.fromJSON ∘ PieceModel.toJSON) = ps := by
      have hc : ps.map (PieceModel.fromJSON ∘ PieceModel.toJSON) = ps.map id :=
        List.map_congr_left fun a _ => piece_roundtrip a
      rw [hc, List.map_id]
    have h2 : hist.map (GameModel.fromJSON ∘ GameModel.toJSON) = hist := by
      have hc : hist.map (GameModel.fromJSON ∘ GameModel.toJSON) = hist.map id :=
        List.map_congr_left fun a ha => ih ⟨a, ha⟩
      rw [hc, List.map_id]
    rw [h1, h2]

/-- Membership in the JavaScript loop interval [lo, hi). -/
theorem mem_intRange {lo hi a : Int} : a ∈ intRange lo hi ↔ lo ≤ a ∧ a < hi := by
  simp only [intRange, List.mem_map, List.mem_range]
  constructor
  · rintro ⟨i, hilt, rfl⟩
    omega
  · intro h
    exact ⟨(a - lo).toNat, by omega, by omega⟩

/-- A find? hit makes the corresponding any true. -/
theorem any_of_find?_eq_some {α : Type} {p : α → Bool} {l : List α} {a : α}
    (h : l.find? p = some a) : l.any p = true :=
  List.any_eq_true.mpr ⟨a, List.mem_of_find?_eq_some h, List.find?_some h⟩

/-- An any that is false makes find? miss. -/
theorem find?_eq_none_of_any_eq_false {α : Type} {p : α → Bool} {l : List α}
    (h : l.any p = false) : l.find? p = none := by
  rw [List.find?_eq_none]
  intro x hx hpx
  have htrue := List.any_eq_true.mpr ⟨x, hx, hpx⟩
  rw [h] at htrue
  exact Bool.false_ne_true htrue

/-- canMove accepts only targets inside the board. -/
theorem canMove_isValid {piece : PieceModel} {tx ty : Int} {gm : GameModel}
    (h : Rules.canMove piece tx ty gm = true) : (Position.mk tx ty).isValid = true := by
  cases hb : (Position.mk tx ty).isValid with
  | true => rfl
  | false =>
    rw [Rules.canMove, hb] at h
    simp at h

/-- Keeping the conditional hits of a scan is a sublist of the scan itself. -/
theorem filterMap_if_sublist {α β : Type} (g : α → β) (c : α → Bool) (l : List α) :
    (l.filterMap fun a => if c a then some (g a) else none).Sublist (l.map g) := by
  induction l with
  | nil => simp
  | cons a t ihl =>
    by_cases h : c a = true
    · simp only [List.filterMap_cons, if_pos h, List.map_cons]
      exact ihl.cons₂ _
    · simp only [List.filterMap_cons, if_neg h, List.map_cons]
      exact ihl.cons _

/-- flatMap preserves pointwise sublists. -/
theorem flatMap_sublist {α β : Type} (f g : α → List β) (l : List α)
    (h : ∀ a ∈ l, (f a).Sublist (g a)) : (l.flatMap f).Sublist (l.flatMap g) := by
  induction l with
  | nil => simp
  | cons a t ihl =>
    simp only [List.flatMap_cons]
    exact (h a (by simp)).append (ihl fun b hb => h b (by simp [hb]))

/-- The square scan is strictly increasing in file-major order. -/
theorem pairwise_allSquares :
    allSquares.Pairwise (fun a b => a.x < b.x ∨ (a.x = b.x ∧ a.y < b.y)) := by decide

/-- The facing-generals test succeeds whenever both generals are found, share
a file, and the squares strictly between them are empty. -/
theorem face_of_clear (gm : GameModel) (redKing blackKing : PieceModel)
    (hr : gm.pieces.find?
      (fun p => p.isAlive && p.type == PieceType.king && p.color == PieceColor.red) = some redKing)
    (hb : gm.pieces.find?
      (fun p => p.isAlive && p.type == PieceType.king && p.color == PieceColor.black) = some blackKing)
    (hx : redKing.position.x = blackKing.position.x)
    (hclear : ∀ y : Int, min redKing.position.y blackKing.position.y < y →
      y < max redKing.position.y blackKing.position.y →
      gm.getPieceAt redKing.position.x y = none) :
    Rules.isKingFaceToFace gm = true := by
  have hxeq : (redKing.position.x != blackKing.position.x) = false := by
    simp [hx]
  rw [Rules.isKingFaceToFace, hr, hb]
  simp only [hxeq, Bool.false_eq_true, if_false]
  apply List.all_eq_true.mpr
  intro y hy
  have hmem := mem_intRange.mp hy
  have hnone := hclear y (by omega) (by omega)
  simp [hnone]

/-- A clear path is the same thing as a zero mount count. -/
theorem isPathClear_iff_mountCount_eq_zero (piece : PieceModel) (tx ty : Int) (gm : GameModel) :
    Rules.isPathClear piece tx ty gm = true ↔ Rules.mountCount piece tx ty gm = 0 := by
  rw [Rules.isPathClear, Rules.mountCount]
  by_cases h1 : (piece.position.y == ty) = true
  · rw [if_pos h1, if_pos h1]
    simp only [List.all_eq_true, List.length_eq_zero, List.filter_eq_nil_iff,
      Option.isNone_iff_eq_none, ← Option.not_isSome_iff_eq_none]
  · rw [if_neg h1, if_neg h1]
    by_cases h2 : (piece.position.x == tx) = true
    · rw [if_pos h2, if_pos h2]
      simp only [List.all_eq_true, List.length_eq_zero, List.filter_eq_nil_iff,
        Option.isNone_iff_eq_none, ← Option.not_isSome_iff_eq_none]
    · rw [if_neg h2, if_neg h2]
      simp

/-- No live piece sits strictly between the two generals of faceGm. -/
theorem faceGm_clear (y : Int) (h1 : (0 : Int) < y) (h2 : y < 9) :
    faceGm.getPieceAt 4 y = none := by
  rw [GameModel.getPieceAt]
  apply List.find?_eq_none.mpr
  intro p hp
  simp only [faceGm, mkState, mkPiece, GameModel.pieces, List.mem_cons,
    List.not_mem_nil, or_false] at hp
  rcases hp with rfl | rfl <;>
    · intro hpred
      simp only [Bool.and_eq_true, beq_iff_eq] at hpred
      omega

/-- A uniform pick from a non-empty list always yields a move. -/
theorem chooseRandomMove_isSome {l : List Move} (ridx : Nat) (h : l ≠ []) :
    (chooseRandomMove l ridx).isSome = true := by
  rw [chooseRandomMove]
  have hlen : 0 < l.length := List.length_pos.mpr h
  rw [List.get?_eq_get (Nat.mod_lt _ hlen)]
  rfl

/-! The claim theorems. -/

/-- Claim C1 (code bug, evaluated at the failing input): canMove accepts the
red cannon's quiet move from (4,5) to (5,5) in c1Gm even though the move
uncovers the red general to the black chariot on the e-file: the position after
the move has red in check, and the rule engine's own self-check test
wouldBeInCheckAfterMove flags the move, but canMoveCannon never consults it —
unlike the movers of all six other piece types. -/
theorem claim_C1_cannon_selfcheck_eval :
    Rules.canMove c1Cannon 5 5 c1Gm = true ∧
    Rules.wouldBeInCheckAfterMove c1Cannon 5 5 c1Gm = true ∧
    Rules.isInCheck PieceColor.red (applyMove c1Cannon 5 5 c1Gm) = true := by
  decide

/-- Claim C2: for every piece and every state, getValidMoves contains a
position exactly when canMove accepts it, over all board squares (out-of-board
targets are rejected by canMove and never generated), and the produced list is
strictly increasing in file-major scan order — which also pins the list down
uniquely, so two calls on equal states return the same list. -/
theorem claim_C2_move_generation (piece : PieceModel) (gm : GameModel) :
    (∀ pos : Position,
      pos ∈ Rules.getValidMoves piece gm ↔ Rules.canMove piece pos.x pos.y gm = true) ∧
    (Rules.getValidMoves piece gm).Pairwise
      (fun a b => a.x < b.x ∨ (a.x = b.x ∧ a.y < b.y)) := by
  constructor
  · intro pos
    obtain ⟨px, py⟩ := pos
    simp only [Rules.getValidMoves, List.mem_flatMap, List.mem_filterMap, List.mem_range]
    constructor
    · rintro ⟨x, hx, y, hy, hsome⟩
      split at hsome
      next hc =>
        obtain ⟨hpx, hpy⟩ := Position.mk.injEq .. ▸ Option.some.injEq .. ▸ hsome
        rw [← hpx, ← hpy]
        exact hc
      next => exact absurd hsome (by simp)
    · intro hc
      have hv := canMove_isValid hc
      have hb : 0 ≤ px ∧ px ≤ 8 ∧ 0 ≤ py ∧ py ≤ 9 := by
        simpa [Position.isValid, BOARD_WIDTH, BOARD_HEIGHT] using hv
      refine ⟨px.toNat, by omega, py.toNat, by omega, ?_⟩
      rw [Int.toNat_of_nonneg hb.1, Int.toNat_of_nonneg hb.2.2.1, if_pos hc]
  · have hsub : (Rules.getValidMoves piece gm).Sublist allSquares := by
      rw [Rules.getValidMoves, allSquares]
      exact flatMap_sublist _ _ _ fun x _ => filterMap_if_sublist _ _ _
    exact pairwise_allSquares.sublist hsub

/-- Claim C3: whenever both generals are alive (as found by the engine's own
search), stand on the same file, and no live piece occupies a square strictly
between them, checkGameOver declares the side to move the winner. -/
theorem claim_C3_facing_generals_win (gm : GameModel) (redKing blackKing : PieceModel)
    (hr : gm.pieces.find?
      (fun p => p.isAlive && p.type == PieceType.king && p.color == PieceColor.red) = some redKing)
    (hb : gm.pieces.find?
      (fun p => p.isAlive && p.type == PieceType.king && p.color == PieceColor.black) = some blackKing)
    (hx : redKing.position.x = blackKing.position.x)
    (hclear : ∀ y : Int, min redKing.position.y blackKing.position.y < y →
      y < max redKing.position.y blackKing.position.y →
      gm.getPieceAt redKing.position.x y = none) :
    Rules.checkGameOver gm = some gm.currentTurn := by
  have hface := face_of_clear gm redKing blackKing hr hb hx hclear
  have hra := any_of_find?_eq_some hr
  have hba := any_of_find?_eq_some hb
  rw [Rules.checkGameOver]
  simp only [hra, hba, hface, Bool.not_true, Bool.false_eq_true, if_false, if_true]
  cases gm.currentTurn <;> simp

/-- Claim C3 witness: the two bare generals face each other on the open e-file
with red to move, and red is declared the winner. -/
theorem claim_C3_facing_generals_win_witness :
    faceGm.pieces.find?
      (fun p => p.isAlive && p.type == PieceType.king && p.color == PieceColor.red) =
        some (mkPiece .king .red 4 9 "rk") ∧
    Rules.checkGameOver faceGm = some faceGm.currentTurn :=
  ⟨by decide,
    claim_C3_facing_generals_win faceGm (mkPiece .king .red 4 9 "rk")
      (mkPiece .king .black 4 0 "bk") (by decide) (by decide) (by decide)
      (fun y h1 h2 => faceGm_clear y h1 h2)⟩

/-- Claim C10: in a facing-generals position (both generals alive, same file,
clear between), isInCheck answers true for red and for black alike. -/
theorem claim_C10_face_check_both_sides (gm : GameModel) (redKing blackKing : PieceModel)
    (hr : gm.pieces.find?
      (fun p => p.isAlive && p.type == PieceType.king && p.color == PieceColor.red) = some redKing)
    (hb : gm.pieces.find?
      (fun p => p.isAlive && p.type == PieceType.king && p.color == PieceColor.black) = some blackKing)
    (hx : redKing.position.x = blackKing.position.x)
    (hclear : ∀ y : Int, min redKing.position.y blackKing.position.y < y →
      y < max redKing.position.y blackKing.position.y →
      gm.getPieceAt redKing.position.x y = none) :
    Rules.isInCheck PieceColor.red gm = true ∧ Rules.isInCheck PieceColor.black gm = true := by
  have hface := face_of_clear gm redKing blackKing hr hb hx hclear
  constructor
  · rw [Rules.isInCheck, hr]
    simp only [hface, if_true]
  · rw [Rules.isInCheck, hb]
    simp only [hface, if_true]

/-- Claim C10 witness: both queries return true on the concrete facing state. -/
theorem claim_C10_face_check_both_sides_witness :
    Rules.isInCheck PieceColor.red faceGm = true ∧
    Rules.isInCheck PieceColor.black faceGm = true :=
  claim_C10_face_check_both_sides faceGm (mkPiece .king .red 4 9 "rk")
    (mkPiece .king .black 4 0 "bk") (by decide) (by decide) (by decide)
    (fun y h1 h2 => faceGm_clear y h1 h2)

/-- Claim C4 counterexample: in a state where black's general is not alive the
claim demands the opponent (red) as winner; but red's general is also captured
here and checkGameOver checks red first, so it returns black, not red. -/
theorem claim_C4_cex :
    (c4DeadGm.pieces.any fun p =>
      p.isAlive && p.type == PieceType.king && p.color == PieceColor.black) = false ∧
    Rules.checkGameOver c4DeadGm ≠ some (oppColor PieceColor.black) := by
  decide

/-- Claim C4 (amended): when a side's general is not alive and the opponent's
general is alive, isInCheck for the bereft side returns false (no throw, no
lookup failure) and checkGameOver returns the opponent. -/
theorem claim_C4_missing_general (gm : GameModel) (c : PieceColor)
    (hdead : (gm.pieces.any fun p =>
      p.isAlive && p.type == PieceType.king && p.color == c) = false)
    (halive : (gm.pieces.any fun p =>
      p.isAlive && p.type == PieceType.king && p.color == oppColor c) = true) :
    Rules.isInCheck c gm = false ∧ Rules.checkGameOver gm = some (oppColor c) := by
  constructor
  · rw [Rules.isInCheck, find?_eq_none_of_any_eq_false hdead]
  · cases c
    · rw [Rules.checkGameOver]
      simp only [hdead, Bool.not_false, if_true, oppColor]
    · simp only [oppColor] at halive
      rw [Rules.checkGameOver]
      simp only [hdead, halive, Bool.not_true, Bool.not_false, Bool.false_eq_true, if_false,
        if_true, oppColor]

/-- Claim C4 witness: black's general is captured in c4wGm, red's is alive, and
the amended statement applies. -/
theorem claim_C4_missing_general_witness :
    ((c4wGm.pieces.any fun p =>
      p.isAlive && p.type == PieceType.king && p.color == PieceColor.black) = false) ∧
    ((c4wGm.pieces.any fun p =>
      p.isAlive && p.type == PieceType.king && p.color == oppColor PieceColor.black) = true) ∧
    (Rules.isInCheck PieceColor.black c4wGm = false ∧
      Rules.checkGameOver c4wGm = some (oppColor PieceColor.black)) :=
  ⟨by decide, by decide, claim_C4_missing_general c4wGm PieceColor.black (by decide) (by decide)⟩

/-- Claim C5: for a target on the cannon's file or rank, a capture (live
occupant at the target of the enemy color) is accepted exactly when the mount
count — the number of strictly-between squares holding a live piece — is one,
and a quiet move (empty target) is accepted exactly when that count is zero,
i.e. the strictly-between path is entirely empty. -/
theorem claim_C5_cannon_rule (gm : GameModel) (piece : PieceModel) (targetX targetY : Int)
    (hline : piece.position.x = targetX ∨ piece.position.y = targetY) :
    (∀ q : PieceModel, gm.getPieceAt targetX targetY = some q → q.color ≠ piece.color →
      (Rules.canMoveCannon piece targetX targetY gm = true ↔
        Rules.mountCount piece targetX targetY gm = 1)) ∧
    (gm.getPieceAt targetX targetY = none →
      (Rules.canMoveCannon piece targetX targetY gm = true ↔
        Rules.mountCount piece targetX targetY gm = 0)) := by
  have hstraight : (piece.position.x != targetX && piece.position.y != targetY) = false := by
    rcases hline with h | h <;> simp [h]
  constructor
  · intro q hq _
    rw [Rules.canMoveCannon, hq]
    simp only [hstraight, Bool.false_eq_true, if_false]
    rw [Rules.hasExactlyOneCannonMount]
    exact beq_iff_eq ..
  · intro hq
    rw [Rules.canMoveCannon, hq]
    simp only [hstraight, Bool.false_eq_true, if_false]
    exact isPathClear_iff_mountCount_eq_zero piece targetX targetY gm

/-- Claim C5 witness: in c5Gm the capture of the black chariot over the single
screen is accepted with mount count one, and both hypotheses hold concretely. -/
theorem claim_C5_cannon_rule_witness :
    (c5Cannon.position.x = 4 ∨ c5Cannon.position.y = 1) ∧
    c5Gm.getPieceAt 4 1 = some (mkPiece .chariot .black 4 1 "bc") ∧
    (Rules.canMoveCannon c5Cannon 4 1 c5Gm = true ↔ Rules.mountCount c5Cannon 4 1 c5Gm = 1) ∧
    (c5Gm.getPieceAt 4 6 = none →
      (Rules.canMoveCannon c5Cannon 4 6 c5Gm = true ↔ Rules.mountCount c5Cannon 4 6 c5Gm = 0)) :=
  ⟨Or.inl (by decide), by decide,
    (claim_C5_cannon_rule c5Gm c5Cannon 4 1 (Or.inl (by decide))).1
      (mkPiece .chariot .black 4 1 "bc") (by decide) (by decide),
    (claim_C5_cannon_rule c5Gm c5Cannon 4 6 (Or.inl (by decide))).2⟩

/-- Claim C6 counterexample: the black soldier on (0,0) scores 200 while the
red soldier on the board-mirrored square (0, 9 - 0) scores 0 — the tables are
not mirrored across the board's horizontal midline as claimed. -/
theorem claim_C6_cex :
    AIWorker.getPositionValue c6BlackSoldier = 200 ∧
    AIWorker.getPositionValue c6RedSoldier = 0 ∧
    AIWorker.getPositionValue c6BlackSoldier ≠ AIWorker.getPositionValue c6RedSoldier := by
  decide

/-- Claim C6 (amended): the 9-row tables are mirrored between the two sides
through row index 8 - y: for every type and every square with x in [0,8] and
y in [0,8], the black bonus at (x,y) equals the red bonus at (x, 8-y); on the
tenth rank (y = 9), which the tables do not cover, both sides score 0. -/
theorem claim_C6_table_mirror :
    (∀ (t : PieceType) (x : Nat), x < 9 → ∀ (y : Nat), y < 9 →
      AIWorker.getPositionValue (PieceModel.mk t PieceColor.black (Position.mk x y) true "b") =
        AIWorker.getPositionValue
          (PieceModel.mk t PieceColor.red (Position.mk x (8 - (y : Int))) true "r")) ∧
    (∀ (t : PieceType) (c : PieceColor) (x : Nat), x < 9 →
      AIWorker.getPositionValue (PieceModel.mk t c (Position.mk x 9) true "p") = 0) := by
  decide

/-- Claim C6 witness: the mirror relation applied at the soldier on (0,0) and
the tenth-rank zero applied at (0,9). -/
theorem claim_C6_table_mirror_witness :
    AIWorker.getPositionValue (PieceModel.mk .soldier PieceColor.black (Position.mk 0 0) true "b") =
      AIWorker.getPositionValue
        (PieceModel.mk .soldier PieceColor.red (Position.mk 0 (8 - ((0 : Nat) : Int))) true "r") ∧
    AIWorker.getPositionValue (PieceModel.mk .soldier PieceColor.red (Position.mk 0 9) true "p") = 0 :=
  ⟨claim_C6_table_mirror.1 .soldier 0 (by decide) 0 (by decide),
    claim_C6_table_mirror.2 .soldier PieceColor.red 0 (by decide)⟩

/-- Claim C7 counterexample: two hard-tier runs on the identical serialized
state, with the 5% random pick disabled in both and identical clock behavior,
return different moves — the randomized comparator inside sortMoves is a second
source of randomness the claim overlooks. -/
theorem claim_C7_cex :
    c7OA.pickCoin = false ∧ c7OB.pickCoin = false ∧ c7OA.deadline = c7OB.deadline ∧
    AIWorker.makeMove c7Data PieceColor.red .hard c7OA ≠
      AIWorker.makeMove c7Data PieceColor.red .hard c7OB := by
  refine ⟨rfl, rfl, rfl, ?_⟩
  have hd : GameModel.fromJSON c7Data = c7Gm := gm_roundtrip c7Gm
  simp only [AIWorker.makeMove, hd]
  decide

/-- Claim C7 (amended): with the randomization probability forced to zero the
5% pick branch is dead, so two hard-tier runs that observe the same sort
reorderings and the same clock return the same move, whatever index draws the
disabled pick branch (and the unused easy/medium draw) would have used. -/
theorem claim_C7_hard_deterministic (data : GameJSON) (aiColor : PieceColor)
    (o1 o2 : SearchOracle)
    (hperm : o1.perms = o2.perms) (hdl : o1.deadline = o2.deadline)
    (hc1 : o1.pickCoin = false) (hc2 : o2.pickCoin = false) :
    AIWorker.makeMove data aiColor .hard o1 = AIWorker.makeMove data aiColor .hard o2 := by
  obtain ⟨p1, d1, c1, i1, r1⟩ := o1
  obtain ⟨p2, d2, c2, i2, r2⟩ := o2
  simp only at hperm hdl hc1 hc2
  subst hperm
  subst hdl
  subst hc1
  subst hc2
  simp [AIWorker.makeMove, AIWorker.chooseHardMove, AIWorker.iterativeDeepening,
    AIWorker.selectMoveWithRandomness]

/-- Claim C7 witness: two concrete runs differing only in the pick-index and
easy/medium draws coincide. -/
theorem claim_C7_hard_deterministic_witness :
    c7O1.perms = c7O2.perms ∧ c7O1.deadline = c7O2.deadline ∧
    c7O1.pickCoin = false ∧ c7O2.pickCoin = false ∧
    AIWorker.makeMove c7Data PieceColor.red .hard c7O1 =
      AIWorker.makeMove c7Data PieceColor.red .hard c7O2 :=
  ⟨rfl, rfl, rfl, rfl,
    claim_C7_hard_deterministic c7Data PieceColor.red c7O1 c7O2 rfl rfl rfl rfl⟩

/-- Claim C8 counterexample: in c8Gm the side to move (red) has legal moves,
yet AI.makeMove returns none because the AI is configured to play black — the
claim's "none only if the side to move has no legal moves" does not hold for
off-turn calls. -/
theorem claim_C8_cex :
    AIWorker.getAllValidMovesForCurrentPlayer c8Gm ≠ [] ∧ AI.makeMove c8Gm 0 = none := by
  exact ⟨by decide, by decide⟩

/-- The medium tier always yields a move from a non-empty move list. -/
theorem chooseMediumMove_isSome (l : List Move) (gm : GameModel) (ridx : Nat) (h : l ≠ []) :
    (AI.chooseMediumMove l gm ridx).isSome = true := by
  simp only [AI.chooseMediumMove]
  split
  next hck =>
    apply chooseRandomMove_isSome
    simp only [decide_eq_true_eq] at hck
    exact List.ne_nil_of_length_pos hck
  next =>
    split
    next hcap =>
      apply chooseRandomMove_isSome
      simp only [decide_eq_true_eq] at hcap
      exact List.ne_nil_of_length_pos hcap
    next => exact chooseRandomMove_isSome ridx h

/-- The one-ply hard tier of the main-thread AI always yields a move from a
non-empty move list. -/
theorem chooseHardMove_isSome (l : List Move) (gm : GameModel) (h : l ≠ []) :
    (AI.chooseHardMove l gm).isSome = true := by
  rcases l with _ | ⟨first, rest⟩
  · exact absurd rfl h
  · rfl

/-- Claim C8 (amended): whenever it is the AI side's turn and the side to move
has at least one legal move, AI.makeMove returns a (piece, target) pair, at
every difficulty tier and for every random draw. -/
theorem claim_C8_some_when_moves (gm : GameModel) (ridx : Nat)
    (hturn : gm.currentTurn = gm.aiPlayerColor)
    (hmoves : AIWorker.getAllValidMovesForCurrentPlayer gm ≠ []) :
    (AI.makeMove gm ridx).isSome = true := by
  have hbridge : AI.getAllValidMoves gm = AIWorker.getAllValidMovesForCurrentPlayer gm := by
    rw [AI.getAllValidMoves, AIWorker.getAllValidMovesForCurrentPlayer, hturn]
  have hne : AI.getAllValidMoves gm ≠ [] := hbridge ▸ hmoves
  rw [AI.makeMove, hturn]
  simp only [bne_self_eq_false, Bool.false_eq_true, if_false]
  have hlen : ((AI.getAllValidMoves gm).length == 0) = false := by
    simp [List.length_eq_zero, hne]
  rw [hlen]
  simp only [Bool.false_eq_true, if_false]
  cases hdiff : gm.aiDifficulty with
  | easy => exact chooseRandomMove_isSome ridx hne
  | medium => exact chooseMediumMove_isSome _ gm ridx hne
  | hard => exact chooseHardMove_isSome _ gm hne

/-- Claim C8 witness: with the AI playing red and red to move in c8wGm, the
easy tier returns a move. -/
theorem claim_C8_some_when_moves_witness :
    c8wGm.currentTurn = c8wGm.aiPlayerColor ∧
    AIWorker.getAllValidMovesForCurrentPlayer c8wGm ≠ [] ∧
    (AI.makeMove c8wGm 0).isSome = true :=
  ⟨rfl, by decide, claim_C8_some_when_moves c8wGm 0 rfl (by decide)⟩

/-- Claim C9: serialization round-trips: rebuilding a GameModel from its JSON
form preserves the piece list exactly (ids, types, sides, positions, liveness,
in order) along with the side to move, the check flag and the winner. -/
theorem claim_C9_roundtrip (m : GameModel) :
    (GameModel.fromJSON (GameModel.toJSON m)).pieces = m.pieces ∧
    (GameModel.fromJSON (GameModel.toJSON m)).currentTurn = m.currentTurn ∧
    (GameModel.fromJSON (GameModel.toJSON m)).isInCheck = m.isInCheck ∧
    (GameModel.fromJSON (GameModel.toJSON m)).winner = m.winner := by
  rw [gm_roundtrip m]
  exact ⟨rfl, rfl, rfl, rfl⟩

end Chess
